import Mathlib

/-!
Verification of the sensAI reference-design image builders.

Shallow embedding of the three core components:
* RootImageBuilder.py   (outer flash-image layout engine)
* CameraConfigBuilder.py (camera-configuration container)
* xlate_camera_config.py (register-script transcoder, class I2CBinGenerator)

Machine integers are modelled as Nat/Int (Python ints are unbounded);
byte strings are modelled as List Nat with every element below 256.
Fallible operations (struct.pack range errors, int.to_bytes overflow,
IndexError, duplicate-identifier ValueError) are modelled with Option/Except.
-/

set_option maxRecDepth 100000

namespace SensAI

/-! Byte-level helpers shared by all three scripts.  These model the
CPython primitives the scripts call: int.to_bytes(n, 'little'),
struct.pack("III", ...), struct.unpack("III", ...)[0]. -/

/-- Little-endian base-256 digits of n, exactly len bytes (low byte first).
Models the digit expansion used by int.to_bytes(len, 'little') for values
that fit; callers that can overflow go through pyToBytes. -/
def toLEbytes : Nat → Nat → List Nat
  | 0, _ => []
  | len + 1, n => n % 256 :: toLEbytes len (n / 256)

/-- Models int.to_bytes(len, 'little'), which raises OverflowError when the
value does not fit in len bytes; none models the raise. -/
def pyToBytes (len n : Nat) : Option (List Nat) :=
  if n < 256 ^ len then some (toLEbytes len n) else none

/-- Models struct.pack("III", a, b, c): three uint32 little-endian fields,
12 bytes total; none models the struct.error raised when a value does not
fit in an unsigned 32-bit field. -/
def structPackIII (a b c : Nat) : Option (List Nat) :=
  if a < 2 ^ 32 ∧ b < 2 ^ 32 ∧ c < 2 ^ 32 then
    some (toLEbytes 4 a ++ toLEbytes 4 b ++ toLEbytes 4 c)
  else none

/-- Value of a little-endian byte list (low byte first). -/
def fromLEbytes : List Nat → Nat
  | [] => 0
  | b :: bs => b + 256 * fromLEbytes bs

/-- Models struct.unpack("III", entry)[0]: the first uint32 field of a
packed 12-byte directory entry. -/
def unpackUID (entry : List Nat) : Nat :=
  fromLEbytes (entry.take 4)

/-- Errors raised by the builder scripts.  All of them surface as Python
exceptions (ValueError, struct.error, OverflowError, IndexError). -/
inductive PyError where
  | duplicateUID : PyError
  | structError : PyError
  | indexError : PyError
  | overflowError : PyError
  deriving DecidableEq, Repr

namespace RootImageBuilder

/-! Embedding of src/dev/gard/platform_fw/src/scripts/RootImageBuilder.py. -/

/-- FlashLayout.Directory: accumulates packed 12-byte directory entries.
In the Python source both first_UID and dir_entries are class attributes;
an instance that never assigns them reads and mutates the class-level
values.  The structure below holds the state those attributes have at a
given moment, wherever that state lives. -/
structure Directory where
  first_UID : Option Nat := none
  dir_entries : List (List Nat) := []
  deriving DecidableEq, Repr

/-- Directory.add_entry(uid, offset, size): rejects a uid already present
in dir_entries (ValueError), otherwise appends struct.pack("III", uid,
offset, size).  Returns the directory state after the call together with
the outcome; on an error the check precedes the append, so the state is
unchanged. -/
def Directory.add_entry (d : Directory) (uid off size : Nat) :
    Directory × Except PyError Unit :=
  if d.dir_entries.any (fun entry => unpackUID entry == uid) then
    (d, .error .duplicateUID)
  else
    match structPackIII uid off size with
    | none => (d, .error .structError)
    | some entry => ({ d with dir_entries := d.dir_entries ++ [entry] }, .ok ())

/-- The reorder loop inside Directory.get_dir_entries: find the first entry
whose uid equals the pinned uid, remove it and insert it at position 0. -/
def pinnedReorder (u : Nat) (entries : List (List Nat)) : List (List Nat) :=
  match entries.find? (fun item => unpackUID item == u) with
  | some item => item :: entries.erase item
  | none => entries

/-- Directory.get_dir_entries(): serialization of the table.  When
first_UID is truthy (set and nonzero) the source reads dir_entries[0]
first, which raises IndexError on an empty list; none models that raise.
Otherwise returns the concatenation of the packed entries, with the
pinned entry moved to the front when it is present and not already
first. -/
def Directory.get_dir_entries (d : Directory) : Option (List Nat) :=
  match d.first_UID with
  | some u =>
    if u ≠ 0 then
      match d.dir_entries with
      | [] => none
      | e0 :: _ =>
        if unpackUID e0 == u then some d.dir_entries.flatten
        else some (pinnedReorder u d.dir_entries).flatten
    else some d.dir_entries.flatten
  | none => some d.dir_entries.flatten

/-- FlashLayout.align_value(value): the source computes
(value + ALIGNMENT_VALUE - 1) & ~(ALIGNMENT_VALUE - 1) on unbounded
nonnegative Python ints.  For a nonnegative x and mask m, the bits of
x & m form a sub-mask of the bits of x, so x & ~m = x - (x & m); the
definition below uses that identity to stay inside Nat. -/
def align_value (A v : Nat) : Nat :=
  (v + A - 1) - ((v + A - 1) &&& (A - 1))

/-- FlashLayout.WriteModuleToFile, allocation view: the module is written
at the current module_offset, and the cursor advances to
align_value(module_start + module_size).  Returns (start offset of this
module, cursor after the call). -/
def WriteModuleToFile (A module_offset module_size : Nat) : Nat × Nat :=
  (module_offset, align_value A (module_offset + module_size))

/-- Start offsets at which successive modules of the given sizes are
written, beginning from cursor cur. -/
def moduleOffsets (A : Nat) : Nat → List Nat → List Nat
  | _, [] => []
  | cur, size :: rest =>
    (WriteModuleToFile A cur size).1 ::
      moduleOffsets A (WriteModuleToFile A cur size).2 rest

/-- Successive values of the allocation cursor module_offset, beginning
from cur, one value before any module and one after each module. -/
def cursorTrace (A : Nat) : Nat → List Nat → List Nat
  | cur, [] => [cur]
  | cur, size :: rest => cur :: cursorTrace A (WriteModuleToFile A cur size).2 rest

/-- Initial module_offset of a build in write_flash_layout_from_args:
dir1_offset + ALIGNMENT_VALUE * dir_copies, with dir1_offset set to
ALIGNMENT_VALUE when the alignment argument is truthy. -/
def initialModuleOffset (A copies : Nat) : Nat :=
  A + A * copies

/-! Model of one root-image build as far as the directory is concerned,
used to compare two sequential builds inside one Python process.  The
key point of the embedding: Directory.dir_entries is a class attribute
in the source, so the list a freshly constructed Directory() instance
starts from is whatever the previous build left in the class attribute,
not a fresh empty list.  The classEntries parameter below carries that
class-attribute state into the build. -/

/-- The loop of Add*/WriteModuleToFile calls of one build: for each
(uid, size) pair the module is written at the cursor, the cursor is
advanced, and add_entry(uid, start - dir1_offset, size) is called.
A duplicate uid raises, aborting the build at that point. -/
def addModules (A dir1 : Nat) :
    RootImageBuilder.Directory → Nat → List (Nat × Nat) →
    RootImageBuilder.Directory × Nat × Except PyError Unit
  | d, cur, [] => (d, cur, .ok ())
  | d, cur, (uid, size) :: rest =>
    let start := (WriteModuleToFile A cur size).1
    let cur2 := (WriteModuleToFile A cur size).2
    match d.add_entry uid (start - dir1) size with
    | (d2, .ok ()) => addModules A dir1 d2 cur2 rest
    | (d2, .error e) => (d2, cur2, .error e)

/-- One root-image build at default CLI settings (alignment 0x8000, one
directory copy, no boot identifier), adding the given (uid, size)
modules.  classEntries is the content of the Directory.dir_entries class
attribute when FlashLayout.__init__ constructs its Directory() instance.
Returns the class-attribute content after the build together with the
serialized directory bytes (or the raised error). -/
def rootImageBuild (classEntries : List (List Nat)) (mods : List (Nat × Nat)) :
    List (List Nat) × Except PyError (List Nat) :=
  let A := 0x8000
  let dir1 := A
  let d0 : RootImageBuilder.Directory :=
    { first_UID := none, dir_entries := classEntries }
  match addModules A dir1 d0 (initialModuleOffset A 1) mods with
  | (d, _, .ok ()) =>
    match d.get_dir_entries with
    | some bs => (d.dir_entries, .ok bs)
    | none => (d.dir_entries, .error .indexError)
  | (d, _, .error e) => (d.dir_entries, .error e)

/-! Model of the RootConfigHeader handling in write_flash_layout_from_args
(lines 392-404, 453-458 and 470-477 of RootImageBuilder.py), which is
what claim C10 is about. -/

/-- FlashLayout.RfsConfiguration with its __init__ defaults.  The
class-attribute read FlashLayout.dir1_offset in __init__ sees the class
default 0, and ALIGNMENT_VALUE the class default 64 KiB. -/
structure RfsConfiguration where
  signature : Nat := 0x4343534C
  layout_version : Nat := 1
  update_count : Nat := 1
  control_field : Nat := 0xFFFFFFFE
  start_of_directory : Nat := 0
  size_of_directory : Nat := 64 * 1024
  count_of_directories : Nat := 1
  size_of_directory_entry : Nat := 12
  uid_of_firmware_to_boot : Nat := 0x1001
  deriving DecidableEq, Repr

/-- RfsConfiguration.get_configuration(): struct.pack("IIIIIIIIII", ...)
with CRC written as 0; none models struct.error when a field does not
fit an unsigned 32-bit slot. -/
def RfsConfiguration.get_configuration (c : RfsConfiguration) : Option (List Nat) :=
  if c.signature < 2 ^ 32 ∧ c.layout_version < 2 ^ 32 ∧ c.update_count < 2 ^ 32 ∧
      c.control_field < 2 ^ 32 ∧ c.start_of_directory < 2 ^ 32 ∧
      c.size_of_directory < 2 ^ 32 ∧ c.count_of_directories < 2 ^ 32 ∧
      c.size_of_directory_entry < 2 ^ 32 ∧ c.uid_of_firmware_to_boot < 2 ^ 32 then
    some (toLEbytes 4 c.signature ++ toLEbytes 4 c.layout_version ++
      toLEbytes 4 c.update_count ++ toLEbytes 4 0 ++
      toLEbytes 4 c.control_field ++ toLEbytes 4 c.start_of_directory ++
      toLEbytes 4 c.size_of_directory ++ toLEbytes 4 c.count_of_directories ++
      toLEbytes 4 c.size_of_directory_entry ++ toLEbytes 4 c.uid_of_firmware_to_boot)
  else none

/-- Mutable FlashLayout state relevant to the header write: the class
defaults of RootImageBuilder.FlashLayout. -/
structure FlashState where
  ALIGNMENT_VALUE : Nat := 64 * 1024
  dir1_offset : Nat := 0
  dir_copies : Nat := 1
  config : RfsConfiguration := {}
  deriving DecidableEq, Repr

/-- Lines 392-404 of write_flash_layout_from_args: when the alignment
argument is truthy it must be a power of two (checked with
a & (a - 1) == 0), then ALIGNMENT_VALUE and dir1_offset are set to it;
when dir_copies is truthy it must be at least 1 and is recorded in the
header. -/
def applyAlignmentArgs (ebAlign dirCopies : Nat) (st : FlashState) :
    Except PyError FlashState := do
  let st1 ←
    if ebAlign ≠ 0 then
      if ebAlign &&& (ebAlign - 1) ≠ 0 then .error .structError
      else pure { st with ALIGNMENT_VALUE := ebAlign, dir1_offset := ebAlign }
    else pure st
  if dirCopies ≠ 0 then
    if dirCopies < 1 then .error .structError
    else
      pure { st1 with
              dir_copies := dirCopies,
              config := { st1.config with count_of_directories := dirCopies } }
  else pure st1

/-- Lines 453-458: a manually supplied StartOfDirectory value is stored
in the header, then validated: it must be a multiple of ALIGNMENT_VALUE
and not smaller than dir1_offset, else the build raises. -/
def applyStartOfDirectory (sdo : Nat) (st : FlashState) :
    Except PyError FlashState :=
  let st1 := { st with config := { st.config with start_of_directory := sdo } }
  if st1.config.start_of_directory % st1.ALIGNMENT_VALUE ≠ 0 then .error .structError
  else if st1.config.start_of_directory < st1.dir1_offset then .error .structError
  else pure st1

/-- Lines 470-471, reached after the argument loop: the header field
start_of_directory is unconditionally overwritten with dir1_offset, and
size_of_directory is set from the directory entry count, just before
WriteConfigurationToFile serializes the header. -/
def finalizeHeader (nEntries : Nat) (st : FlashState) : FlashState :=
  { st with config := { st.config with
      start_of_directory := st.dir1_offset,
      size_of_directory := nEntries * st.config.size_of_directory_entry } }

/-- Header-relevant slice of write_flash_layout_from_args: alignment and
directory-copy arguments, then an optional manual StartOfDirectory from
the rfsconf argument, then the unconditional overwrite of lines 470-471.
nEntries is the number of directory entries the module arguments
produced. -/
def writeFlashHeader (ebAlign dirCopies : Nat) (sdo : Option Nat)
    (nEntries : Nat) : Except PyError FlashState := do
  let st1 ← applyAlignmentArgs ebAlign dirCopies {}
  let st2 ← match sdo with
    | some v => applyStartOfDirectory v st1
    | none => pure st1
  pure (finalizeHeader nEntries st2)

end RootImageBuilder

namespace CameraConfigBuilder

/-! Embedding of src/dev/gard/platform_fw/src/scripts/CameraConfigBuilder.py. -/

/-- CameraActionUID.BASIC_CAMERA_CONFIG. -/
def BASIC_CAMERA_CONFIG : Nat := 0x1001

/-- CameraConfigBuilder.CameraConfigDirectory: textually the same class
body as FlashLayout.Directory (class attributes first_UID and
dir_entries, packed 12-byte entries). -/
structure CameraConfigDirectory where
  first_UID : Option Nat := none
  dir_entries : List (List Nat) := []
  deriving DecidableEq, Repr

/-- CameraConfigDirectory.get_dir_entry_size(): struct.calcsize("III"). -/
def get_dir_entry_size : Nat := 12

/-- CameraConfigDirectory.add_entry(uid, offset, size), identical in the
source to FlashLayout.Directory.add_entry: uniqueness check first, then
append of struct.pack("III", uid, offset, size). -/
def CameraConfigDirectory.add_entry (d : CameraConfigDirectory)
    (uid off size : Nat) : CameraConfigDirectory × Except PyError Unit :=
  if d.dir_entries.any (fun entry => unpackUID entry == uid) then
    (d, .error .duplicateUID)
  else
    match structPackIII uid off size with
    | none => (d, .error .structError)
    | some entry => ({ d with dir_entries := d.dir_entries ++ [entry] }, .ok ())

/-- CameraConfigDirectory.get_dir_entries(), identical in the source to
FlashLayout.Directory.get_dir_entries. -/
def CameraConfigDirectory.get_dir_entries (d : CameraConfigDirectory) :
    Option (List Nat) :=
  match d.first_UID with
  | some u =>
    if u ≠ 0 then
      match d.dir_entries with
      | [] => none
      | e0 :: _ =>
        if unpackUID e0 == u then some d.dir_entries.flatten
        else some (RootImageBuilder.pinnedReorder u d.dir_entries).flatten
    else some d.dir_entries.flatten
  | none => some d.dir_entries.flatten

/-- Size in bytes of BasicConfiguration.get_configuration(): one uint32,
three 16-byte string fields, two uint32 fields packed with
struct.pack("<I16s16s16sII"). -/
def BASIC_CONF_SIZE : Nat := 4 + 16 + 16 + 16 + 4 + 4

/-- Input to write_camera_config_layout_from_args that matters for the
layout: whether any --basicconf argument was supplied (truthiness of
args.basicconf) and the resolved (uid, payload file size) of each
--camconfcmnd argument in command-line order. -/
structure CamArgs where
  basicconf : Bool
  camconfcmnd : List (Nat × Nat)
  deriving DecidableEq, Repr

/-- Layout outcome of one camera-container build: the payload base
offset, the (uid, offset, size) of every payload write in order, and
the directory bytes written at file offset 0. -/
structure CamOutput where
  payload_base : Nat
  writes : List (Nat × Nat × Nat)
  dir_bytes : List Nat
  deriving DecidableEq, Repr

/-- The command loop of write_camera_config_layout_from_args: each
camera-configuration command payload is registered at the running
cursor and the cursor advances by the payload size, with no padding. -/
def addCommands (d : CameraConfigDirectory) (cur : Nat) :
    List (Nat × Nat) →
    CameraConfigDirectory × Nat × List (Nat × Nat × Nat) × Except PyError Unit
  | [] => (d, cur, [], .ok ())
  | (uid, size) :: rest =>
    match d.add_entry uid cur size with
    | (d2, .ok ()) =>
      match addCommands d2 (cur + size) rest with
      | (d3, cur3, ws, r) => (d3, cur3, (uid, cur, size) :: ws, r)
    | (d2, .error e) => (d2, cur, [], .error e)

/-- write_camera_config_layout_from_args: count the directory entries
(one for the basic configuration only when args.basicconf is truthy,
plus one per camera-configuration command), reserve count *
get_dir_entry_size() bytes as the payload base, write the
BasicConfiguration record there under BASIC_CAMERA_CONFIG
(unconditionally, line 410 of the source), then the command payloads,
then the serialized directory at offset 0. -/
def write_camera_config_layout (a : CamArgs) : Except PyError CamOutput := do
  let count := (if a.basicconf then 1 else 0) + a.camconfcmnd.length
  let base := count * get_dir_entry_size
  let d0 : CameraConfigDirectory := { first_UID := none, dir_entries := [] }
  let (d1, r1) := d0.add_entry BASIC_CAMERA_CONFIG base BASIC_CONF_SIZE
  match r1 with
  | .error e => .error e
  | .ok () =>
    let cur := base + BASIC_CONF_SIZE
    match addCommands d1 cur a.camconfcmnd with
    | (_, _, _, .error e) => .error e
    | (d2, _, ws, .ok ()) =>
      match d2.get_dir_entries with
      | none => .error .indexError
      | some bs =>
        pure { payload_base := base,
               writes := (BASIC_CAMERA_CONFIG, base, BASIC_CONF_SIZE) :: ws,
               dir_bytes := bs }

end CameraConfigBuilder

namespace XlateCameraConfig

/-! Embedding of src/dev/gard/apps/dd/hub_app/src/scripts/xlate_camera_config.py,
class I2CBinGenerator.  Text is modelled as List Char; a file is a list
of lines. -/

/-- The characters Python str.strip() removes (ASCII whitespace). -/
def pySpace (c : Char) : Bool :=
  c = ' ' ∨ c = '\t' ∨ c = '\n' ∨ c = '\r' ∨ c = '\x0b' ∨ c = '\x0c'

/-- Python str.strip(): drop leading and trailing whitespace. -/
def pyStrip (cs : List Char) : List Char :=
  ((cs.dropWhile pySpace).reverse.dropWhile pySpace).reverse

/-- The character set of the literal used by check_hex_str. -/
def hexDigitChars : List Char := "0123456789abcdefABCDEF".data

/-- I2CBinGenerator.check_hex_str(s): after stripping, nonempty and every
character belongs to the literal 0123456789abcdefABCDEF. -/
def check_hex_str (s : List Char) : Bool :=
  let s := pyStrip s
  s.length > 0 && s.all (fun c => hexDigitChars.contains c)

/-- Numeric value of one digit character in the given base (10 or 16),
as Python int() accepts it. -/
def digitVal (base : Nat) (c : Char) : Option Nat :=
  if ('0' ≤ c ∧ c ≤ '9') then some (c.toNat - '0'.toNat)
  else if base = 16 ∧ 'a' ≤ c ∧ c ≤ 'f' then some (c.toNat - 'a'.toNat + 10)
  else if base = 16 ∧ 'A' ≤ c ∧ c ≤ 'F' then some (c.toNat - 'A'.toNat + 10)
  else none

/-- Digit-run grammar of Python int literals after the first digit:
single underscores are allowed only between digits. -/
def pyDigitRunGo (base acc : Nat) : List Char → Option Nat
  | [] => some acc
  | '_' :: c :: rest =>
    (digitVal base c).bind (fun v => pyDigitRunGo base (acc * base + v) rest)
  | ['_'] => none
  | c :: rest =>
    (digitVal base c).bind (fun v => pyDigitRunGo base (acc * base + v) rest)

/-- A nonempty run of digits in the given base with single underscores
between digits, as Python int() accepts after sign and base prefix. -/
def pyDigitRun (base : Nat) : List Char → Option Nat
  | [] => none
  | c :: rest => (digitVal base c).bind (fun v => pyDigitRunGo base v rest)

/-- Unsigned part of Python int(s, base): for base 16 an optional 0x/0X
prefix is accepted, optionally followed by one underscore before the
first digit. -/
def pyIntCore (base : Nat) (cs : List Char) : Option Nat :=
  if base = 16 then
    match cs with
    | '0' :: x :: rest =>
      if x = 'x' ∨ x = 'X' then
        match rest with
        | '_' :: rest2 => pyDigitRun 16 rest2
        | _ => pyDigitRun 16 rest
      else pyDigitRun 16 cs
    | _ => pyDigitRun 16 cs
  else pyDigitRun base cs

/-- Python int(s, base) for base 10 and 16: surrounding whitespace is
ignored, one optional sign, then the unsigned literal; none models the
ValueError on any other shape. -/
def pyInt (base : Nat) (cs : List Char) : Option Int :=
  let s := pyStrip cs
  match s with
  | '+' :: rest => (pyIntCore base rest).map (fun n => (n : Int))
  | '-' :: rest => (pyIntCore base rest).map (fun n => -(n : Int))
  | _ => (pyIntCore base s).map (fun n => (n : Int))

/-- Python value & 0xFF on an arbitrary int: equals the nonnegative
residue mod 256 under the two-complement reading of negative ints. -/
def byteMask (v : Int) : Nat := (v % 256).toNat

/-- I2CBinGenerator.parse_bytes(tok): strip; empty gives no byte; a token
whose lowercasing starts with 0x parses as hex; otherwise a token of
hex digits only (check_hex_str) still parses as hex; otherwise decimal;
every branch masks with & 0xFF; a parse failure gives no byte. -/
def parse_bytes (tok : List Char) : Option Nat :=
  let t := pyStrip tok
  if t = [] then none
  else if (t.map Char.toLower).take 2 = ['0', 'x'] then
    (pyInt 16 t).map byteMask
  else if check_hex_str t then
    (pyInt 16 t).map byteMask
  else
    (pyInt 10 t).map byteMask

/-- Everything before the first occurrence of // in the line; the whole
line when // does not occur (line.split('//', 1)[0] guarded by the
containment test in clean_line). -/
def splitBeforeSlashes : List Char → List Char
  | [] => []
  | '/' :: '/' :: _ => []
  | c :: rest => c :: splitBeforeSlashes rest

/-- I2CBinGenerator.clean_line(line): strip, cut a trailing // comment,
strip trailing commas, strip again. -/
def clean_line (line : List Char) : List Char :=
  let l := pyStrip line
  let l := splitBeforeSlashes l
  pyStrip ((l.reverse.dropWhile (fun c => c = ',')).reverse)

/-- Python line.split(','): split on every comma, keeping empty pieces. -/
def splitOnComma : List Char → List (List Char)
  | [] => [[]]
  | ',' :: rest => [] :: splitOnComma rest
  | c :: rest =>
    match splitOnComma rest with
    | p :: ps => (c :: p) :: ps
    | [] => [[c]]

/-- The parts comprehension of extract_entries: split on commas, strip
each piece, drop empty pieces. -/
def lineParts (line : List Char) : List (List Char) :=
  ((splitOnComma line).map pyStrip).filter (fun p => p ≠ [])

/-- The vals loop of extract_entries: parse each part and append the
result when it is not None. -/
def lineVals : List (List Char) → List Nat
  | [] => []
  | p :: rest =>
    match parse_bytes p with
    | some b => b :: lineVals rest
    | none => lineVals rest

/-- Per-record classification at the end of the extract_entries loop
body: a leading 0x00 is skipped; a first byte of at least 0x80 yields
the special entry 0xFF 0xFF 0xFF 0xFF 0x04 followed by the 4-byte
little-endian (first - 0x80) & 0xFFFFFFFF and the remaining bytes; any
other first byte is dropped and the remaining bytes form the entry.
The masked subtraction always fits 4 bytes, so to_bytes cannot raise
here. -/
def record_entry : List Nat → Option (List Nat)
  | [] => none
  | first :: rest =>
    if first = 0 then none
    else if 0x80 ≤ first then
      some ([0xFF, 0xFF, 0xFF, 0xFF, 0x04] ++
        toLEbytes 4 ((first - 0x80) % 2 ^ 32) ++ rest)
    else some rest

/-- One iteration of the extract_entries line loop: returns the entry
contributed by the raw line, or none when the line is skipped. -/
def entryOfLine (raw : List Char) : Option (List Nat) :=
  let line := pyStrip raw
  if line = [] then none
  else if line.take 2 = ['/', '/'] then none
  else
    let line2 := clean_line line
    if line2 = [] then none
    else
      let parts := lineParts line2
      if parts = [] then none
      else record_entry (lineVals parts)

/-- I2CBinGenerator.extract_entries over the lines of the input file. -/
def extract_entries (lines : List (List Char)) : List (List Nat) :=
  lines.filterMap entryOfLine

/-- The grouping loop of write_normal_buffer, after the first buffered
entry seeded prev and cnt: runs of file-order-adjacent rows of equal
length, emitted as (count, length) pairs. -/
def groupRunsGo (prev cnt : Nat) : List (List Nat) → List (Nat × Nat)
  | [] => [(cnt, prev)]
  | e :: rest =>
    if e.length = prev then groupRunsGo prev (cnt + 1) rest
    else (cnt, prev) :: groupRunsGo e.length 1 rest

/-- The two-pointer grouping of write_normal_buffer on a nonempty
buffer. -/
def groupRuns : List (List Nat) → List (Nat × Nat)
  | [] => []
  | e :: rest => groupRunsGo e.length 1 rest

/-- Row adjustment inside the write loop: (row[:blen] + [0]*blen)[:blen],
trimming long rows and zero-padding short ones to exactly blen bytes. -/
def padRow (blen : Nat) (row : List Nat) : List Nat :=
  (row.take blen ++ List.replicate blen 0).take blen

/-- The write loop of write_normal_buffer: for each (cnt, blen) group a
4-byte little-endian count, a 1-byte length and cnt adjusted rows; the
idx pointer walking the buffer is modelled with take and drop.  none
models the OverflowError of to_bytes when cnt or blen does not fit. -/
def emitGroups : List (List Nat) → List (Nat × Nat) → Option (List Nat)
  | _, [] => some []
  | buf, (cnt, blen) :: gs => do
    let hdr ← pyToBytes 4 cnt
    let lenByte ← pyToBytes 1 blen
    let rows := (buf.take cnt).map (padRow blen)
    let rest ← emitGroups (buf.drop cnt) gs
    pure (hdr ++ lenByte ++ rows.flatten ++ rest)

/-- I2CBinGenerator.generate_bin local function write_normal_buffer: an
empty buffer writes nothing; otherwise the buffered rows are grouped by
adjacent equal length and each group is written with its count/length
header. -/
def write_normal_buffer (buf : List (List Nat)) : Option (List Nat) :=
  if buf = [] then some [] else emitGroups buf (groupRuns buf)

/-- The entry loop of generate_bin: an entry of at least 5 bytes whose
first four bytes are 0xFF 0xFF 0xFF 0xFF flushes the buffered normal
rows and is then written verbatim; every other entry is appended to the
buffer; the buffer is flushed once more after the loop. -/
def generate_bin_go (buf : List (List Nat)) : List (List Nat) → Option (List Nat)
  | [] => write_normal_buffer buf
  | e :: rest =>
    if 5 ≤ e.length ∧ e.take 4 = [0xFF, 0xFF, 0xFF, 0xFF] then
      (write_normal_buffer buf).bind (fun flushed =>
        (generate_bin_go [] rest).map (fun out => flushed ++ e ++ out))
    else generate_bin_go (buf ++ [e]) rest

/-- I2CBinGenerator.generate_bin: extract the entries of the input lines
and write them with normal-row grouping and verbatim special records. -/
def generate_bin (lines : List (List Char)) : Option (List Nat) :=
  generate_bin_go [] (extract_entries lines)

end XlateCameraConfig

/-! ## Theorems -/

open RootImageBuilder CameraConfigBuilder XlateCameraConfig

/-- Packed little-endian uid field round-trip: unpacking the first field
of struct.pack("III", uid, off, size) returns uid when uid fits 32
bits. -/
theorem unpackUID_pack (uid off size : Nat) (h : uid < 2 ^ 32) :
    unpackUID (toLEbytes 4 uid ++ toLEbytes 4 off ++ toLEbytes 4 size) = uid := by
  have h4 : (toLEbytes 4 uid).length = 4 := rfl
  have htake : (toLEbytes 4 uid ++ toLEbytes 4 off ++ toLEbytes 4 size).take 4
      = toLEbytes 4 uid := by
    rw [List.append_assoc, List.take_append_of_le_length (by simp [h4]),
      List.take_of_length_le (by simp [h4])]
  unfold unpackUID
  rw [htake]
  show fromLEbytes (toLEbytes 4 uid) = uid
  simp only [toLEbytes, fromLEbytes]
  omega

/-- Packing succeeds exactly on fields that fit 32 bits. -/
theorem structPackIII_eq {a b c : Nat} (h1 : a < 2 ^ 32) (h2 : b < 2 ^ 32)
    (h3 : c < 2 ^ 32) :
    structPackIII a b c = some (toLEbytes 4 a ++ toLEbytes 4 b ++ toLEbytes 4 c) := by
  unfold structPackIII
  rw [if_pos ⟨h1, h2, h3⟩]

/-- C6: on a Directory Table (both the root FlashLayout.Directory and the
camera CameraConfigDirectory), add_entry with an identifier already
present raises DuplicateIdentifierError and returns with the table
exactly as it was, while add_entry with a fresh 32-bit identifier
appends exactly one packed entry and succeeds. -/
theorem c6_duplicate_rejection :
    (∀ (d : RootImageBuilder.Directory) (uid off size : Nat),
      (∃ e ∈ d.dir_entries, unpackUID e = uid) →
      d.add_entry uid off size = (d, .error .duplicateUID)) ∧
    (∀ (d : RootImageBuilder.Directory) (uid off size : Nat),
      (∀ e ∈ d.dir_entries, unpackUID e ≠ uid) →
      uid < 2 ^ 32 → off < 2 ^ 32 → size < 2 ^ 32 →
      (d.add_entry uid off size).1.dir_entries
          = d.dir_entries ++ [toLEbytes 4 uid ++ toLEbytes 4 off ++ toLEbytes 4 size] ∧
      (d.add_entry uid off size).2 = .ok ()) ∧
    (∀ (d : CameraConfigDirectory) (uid off size : Nat),
      (∃ e ∈ d.dir_entries, unpackUID e = uid) →
      d.add_entry uid off size = (d, .error .duplicateUID)) ∧
    (∀ (d : CameraConfigDirectory) (uid off size : Nat),
      (∀ e ∈ d.dir_entries, unpackUID e ≠ uid) →
      uid < 2 ^ 32 → off < 2 ^ 32 → size < 2 ^ 32 →
      (d.add_entry uid off size).1.dir_entries
          = d.dir_entries ++ [toLEbytes 4 uid ++ toLEbytes 4 off ++ toLEbytes 4 size] ∧
      (d.add_entry uid off size).2 = .ok ()) := by
  refine ⟨?_, ?_, ?_, ?_⟩
  · intro d uid off size h
    have hany : d.dir_entries.any (fun e => unpackUID e == uid) = true := by
      rw [List.any_eq_true]
      obtain ⟨e, he, hu⟩ := h
      exact ⟨e, he, by simpa using hu⟩
    simp [Directory.add_entry, hany]
  · intro d uid off size h h1 h2 h3
    have hany : d.dir_entries.any (fun e => unpackUID e == uid) = false := by
      rw [List.any_eq_false]
      intro e he
      simpa using h e he
    simp [Directory.add_entry, hany, structPackIII_eq h1 h2 h3]
  · intro d uid off size h
    have hany : d.dir_entries.any (fun e => unpackUID e == uid) = true := by
      rw [List.any_eq_true]
      obtain ⟨e, he, hu⟩ := h
      exact ⟨e, he, by simpa using hu⟩
    simp [CameraConfigDirectory.add_entry, hany]
  · intro d uid off size h h1 h2 h3
    have hany : d.dir_entries.any (fun e => unpackUID e == uid) = false := by
      rw [List.any_eq_false]
      intro e he
      simpa using h e he
    simp [CameraConfigDirectory.add_entry, hany, structPackIII_eq h1 h2 h3]

/-- A concrete one-entry directory table used to witness the add_entry
theorems: it holds the packed entry (0x1001, 0, 8). -/
def exampleTable : RootImageBuilder.Directory :=
  { first_UID := none,
    dir_entries := [toLEbytes 4 0x1001 ++ toLEbytes 4 0 ++ toLEbytes 4 8] }

/-- Witness for c6_duplicate_rejection at a concrete one-entry table:
adding uid 0x1001 again fails and leaves the table unchanged, adding
fresh uid 0x2001 appends one entry. -/
theorem c6_duplicate_rejection_witness :
    (∃ e ∈ exampleTable.dir_entries, unpackUID e = 0x1001) ∧
    exampleTable.add_entry 0x1001 12 4 = (exampleTable, .error .duplicateUID) ∧
    (exampleTable.add_entry 0x2001 12 4).1.dir_entries
      = exampleTable.dir_entries ++
          [toLEbytes 4 0x2001 ++ toLEbytes 4 12 ++ toLEbytes 4 4] := by
  refine ⟨⟨toLEbytes 4 0x1001 ++ toLEbytes 4 0 ++ toLEbytes 4 8, by decide⟩, ?_, ?_⟩
  · exact c6_duplicate_rejection.1 exampleTable 0x1001 12 4
      ⟨toLEbytes 4 0x1001 ++ toLEbytes 4 0 ++ toLEbytes 4 8, by decide⟩
  · exact (c6_duplicate_rejection.2.1 exampleTable 0x2001 12 4
      (by decide) (by decide) (by decide) (by decide)).1

/-- C2 counterexample: a DirectoryTable with the pinned identifier set to
0x1002 and no entries.  The claim says serialization returns the entries
unchanged and does not fail even when the table is empty, but
get_dir_entries reads dir_entries[0] before checking presence, which
raises IndexError on the empty list (modelled by none). -/
theorem c2_pinned_empty_counterexample :
    ({ first_UID := some 0x1002, dir_entries := [] } :
      RootImageBuilder.Directory).get_dir_entries = none := by
  rfl

/-- The reorder loop moves the first entry carrying the pinned uid to the
front and keeps the relative order of all other entries. -/
theorem pinnedReorder_of_first (u : Nat) (pre post : List (List Nat))
    (e : List Nat)
    (he : unpackUID e = u) (hpre : ∀ x ∈ pre, unpackUID x ≠ u) :
    RootImageBuilder.pinnedReorder u (pre ++ e :: post) = e :: (pre ++ post) := by
  have hne : e ∉ pre := fun hmem => hpre e hmem he
  unfold RootImageBuilder.pinnedReorder
  have hfind : (pre ++ e :: post).find? (fun item => unpackUID item == u)
      = some e := by
    rw [List.find?_append]
    have h1 : pre.find? (fun item => unpackUID item == u) = none := by
      rw [List.find?_eq_none]
      intro x hx
      simpa using hpre x hx
    rw [h1]
    simp [he]
  rw [hfind]
  show e :: (pre ++ e :: post).erase e = e :: (pre ++ post)
  rw [List.erase_append_right _ hne, List.erase_cons_head]

/-- C2 amended: for a DirectoryTable with pinned identifier u set (and
nonzero, since the source tests truthiness): when an entry with uid u is
present, serialization emits that entry first and the rest in their
original relative order; when u is absent but the table is nonempty,
serialization returns the entries in unchanged insertion order without
failing; the empty table is excluded because there serialization raises
IndexError.  The third conjunct is the concrete example of the claim:
entries added in order [0x1003, 0x1001, 0x1002] with pinned 0x1002
serialize in order [0x1002, 0x1003, 0x1001]. -/
theorem c2_pinned_serialization :
    (∀ (d : RootImageBuilder.Directory) (u : Nat), d.first_UID = some u → u ≠ 0 →
      ∀ pre e post, d.dir_entries = pre ++ e :: post → unpackUID e = u →
        (∀ x ∈ pre, unpackUID x ≠ u) →
        d.get_dir_entries = some (e :: (pre ++ post)).flatten) ∧
    (∀ (d : RootImageBuilder.Directory) (u : Nat), d.first_UID = some u → u ≠ 0 →
      d.dir_entries ≠ [] → (∀ x ∈ d.dir_entries, unpackUID x ≠ u) →
      d.get_dir_entries = some d.dir_entries.flatten) ∧
    ({ first_UID := some 0x1002,
       dir_entries :=
        ((((({} : RootImageBuilder.Directory).add_entry 0x1003 0 1).1.add_entry
            0x1001 1 2).1.add_entry 0x1002 3 4).1).dir_entries } :
          RootImageBuilder.Directory).get_dir_entries
      = some ((toLEbytes 4 0x1002 ++ toLEbytes 4 3 ++ toLEbytes 4 4) ++
          ((toLEbytes 4 0x1003 ++ toLEbytes 4 0 ++ toLEbytes 4 1) ++
            ((toLEbytes 4 0x1001 ++ toLEbytes 4 1 ++ toLEbytes 4 2) ++ []))) := by
  refine ⟨?_, ?_, by decide⟩
  · intro d u hset hu pre e post hentries he hpre
    unfold RootImageBuilder.Directory.get_dir_entries
    rw [hset]
    simp only [hu, if_true, ne_eq, not_false_iff]
    cases hpre2 : pre with
    | nil =>
      rw [hentries, hpre2]
      simp [he]
    | cons p pre2 =>
      have hp : unpackUID p ≠ u :=
        hpre p (by rw [hpre2]; exact List.mem_cons_self p pre2)
      have hreorder : RootImageBuilder.pinnedReorder u ((p :: pre2) ++ e :: post)
          = e :: ((p :: pre2) ++ post) := by
        refine pinnedReorder_of_first u (p :: pre2) post e he ?_
        intro x hx
        exact hpre x (by rw [hpre2]; exact hx)
      rw [hentries, hpre2]
      simp only [List.cons_append]
      show (if (unpackUID p == u) = true
          then some (p :: (pre2 ++ e :: post)).flatten
          else some (RootImageBuilder.pinnedReorder u
            (p :: (pre2 ++ e :: post))).flatten)
        = some (e :: (p :: pre2 ++ post)).flatten
      rw [if_neg (by simpa using hp), ← List.cons_append, hreorder]
  · intro d u hset hu hne hall
    unfold RootImageBuilder.Directory.get_dir_entries
    rw [hset]
    simp only [hu, if_true, ne_eq, not_false_iff]
    cases hd : d.dir_entries with
    | nil => exact absurd hd hne
    | cons e0 rest =>
      have h0 : unpackUID e0 ≠ u :=
        hall e0 (by rw [hd]; exact List.mem_cons_self e0 rest)
      show (if (unpackUID e0 == u) = true
          then some (e0 :: rest).flatten
          else some (RootImageBuilder.pinnedReorder u (e0 :: rest)).flatten)
        = some (e0 :: rest).flatten
      rw [if_neg (by simpa using h0)]
      unfold RootImageBuilder.pinnedReorder
      have hfind : (e0 :: rest).find? (fun item => unpackUID item == u) = none := by
        rw [List.find?_eq_none]
        intro x hx
        simpa using hall x (by rw [hd]; exact hx)
      rw [hfind]

/-- Witness for c2_pinned_serialization: the absent-uid conjunct applied
to a concrete one-entry table pinned at 0x2222, and the present-uid
conjunct applied to a two-entry table pinned at its second entry. -/
theorem c2_pinned_serialization_witness :
    ({ first_UID := some 0x2222,
       dir_entries := [toLEbytes 4 0x1003 ++ toLEbytes 4 0 ++ toLEbytes 4 1] } :
        RootImageBuilder.Directory).get_dir_entries
      = some [toLEbytes 4 0x1003 ++ toLEbytes 4 0 ++ toLEbytes 4 1].flatten ∧
    ({ first_UID := some 0x1001,
       dir_entries := [toLEbytes 4 0x1003 ++ toLEbytes 4 0 ++ toLEbytes 4 1,
         toLEbytes 4 0x1001 ++ toLEbytes 4 1 ++ toLEbytes 4 2] } :
        RootImageBuilder.Directory).get_dir_entries
      = some ((toLEbytes 4 0x1001 ++ toLEbytes 4 1 ++ toLEbytes 4 2) ::
          ([toLEbytes 4 0x1003 ++ toLEbytes 4 0 ++ toLEbytes 4 1] ++ [])).flatten := by
  constructor
  · exact c2_pinned_serialization.2.1 _ 0x2222 rfl (by decide) (by decide)
      (by decide)
  · exact c2_pinned_serialization.1 _ 0x1001 rfl (by decide)
      [toLEbytes 4 0x1003 ++ toLEbytes 4 0 ++ toLEbytes 4 1]
      (toLEbytes 4 0x1001 ++ toLEbytes 4 1 ++ toLEbytes 4 2) [] rfl (by decide)
      (by decide)

/-- For a power-of-two alignment, align_value returns a multiple of the
alignment that is at least the input value. -/
theorem align_value_two_pow (k v : Nat) :
    RootImageBuilder.align_value (2 ^ k) v % 2 ^ k = 0 ∧
      v ≤ RootImageBuilder.align_value (2 ^ k) v := by
  unfold RootImageBuilder.align_value
  rw [Nat.and_pow_two_sub_one_eq_mod]
  have hpos : 0 < 2 ^ k := Nat.two_pow_pos k
  have hmod := Nat.mod_lt (v + 2 ^ k - 1) hpos
  have hdm := Nat.div_add_mod (v + 2 ^ k - 1) (2 ^ k)
  constructor
  · have h : (v + 2 ^ k - 1) - (v + 2 ^ k - 1) % 2 ^ k
        = 2 ^ k * ((v + 2 ^ k - 1) / 2 ^ k) := by omega
    rw [h]
    exact Nat.mul_mod_right _ _
  · omega

/-- Every module start offset produced from an aligned cursor is itself
aligned. -/
theorem moduleOffsets_aligned (k : Nat) (sizes : List Nat) :
    ∀ cur, cur % 2 ^ k = 0 →
      ∀ off ∈ RootImageBuilder.moduleOffsets (2 ^ k) cur sizes, off % 2 ^ k = 0 := by
  induction sizes with
  | nil =>
    intro cur hc off hoff
    simp [RootImageBuilder.moduleOffsets] at hoff
  | cons s rest ih =>
    intro cur hc off hoff
    simp only [RootImageBuilder.moduleOffsets,
      RootImageBuilder.WriteModuleToFile] at hoff
    rcases List.mem_cons.mp hoff with h | h
    · rw [h]; exact hc
    · exact ih _ (align_value_two_pow k (cur + s)).1 off h

/-- The cursor trace always starts at its initial cursor. -/
theorem cursorTrace_head (A cur : Nat) (sizes : List Nat) :
    (RootImageBuilder.cursorTrace A cur sizes).head? = some cur := by
  cases sizes <;> rfl

/-- Successive cursor values never decrease for power-of-two
alignments. -/
theorem cursorTrace_chain (k : Nat) (sizes : List Nat) :
    ∀ cur, List.Chain' (fun a b => a ≤ b)
      (RootImageBuilder.cursorTrace (2 ^ k) cur sizes) := by
  induction sizes with
  | nil =>
    intro cur
    simp [RootImageBuilder.cursorTrace]
  | cons s rest ih =>
    intro cur
    simp only [RootImageBuilder.cursorTrace, RootImageBuilder.WriteModuleToFile]
    rw [List.chain'_cons']
    refine ⟨?_, ih _⟩
    intro b hb
    rw [cursorTrace_head] at hb
    cases hb
    calc cur ≤ cur + s := Nat.le_add_right cur s
      _ ≤ RootImageBuilder.align_value (2 ^ k) (cur + s) :=
        (align_value_two_pow k (cur + s)).2

/-- C5: in a root-image build with power-of-two alignment A (the build
validates this) and d directory copies, the allocation cursor starts at
A + A * d; every module start offset handed out by WriteModuleToFile is
an exact multiple of A, and the cursor values never decrease across
successive module additions. -/
theorem c5_alignment_invariant (k copies : Nat) (sizes : List Nat) (A : Nat)
    (hA : A = 2 ^ k) :
    (∀ off ∈ RootImageBuilder.moduleOffsets A
        (RootImageBuilder.initialModuleOffset A copies) sizes, off % A = 0) ∧
    List.Chain' (fun a b => a ≤ b)
      (RootImageBuilder.cursorTrace A
        (RootImageBuilder.initialModuleOffset A copies) sizes) := by
  subst hA
  constructor
  · refine moduleOffsets_aligned k sizes _ ?_
    unfold RootImageBuilder.initialModuleOffset
    have h : 2 ^ k + 2 ^ k * copies = 2 ^ k * (copies + 1) := by ring
    rw [h]
    exact Nat.mul_mod_right _ _
  · exact cursorTrace_chain k sizes _

/-- Witness for c5_alignment_invariant at the default alignment 0x8000,
one directory copy and two modules of sizes 5 and 100 bytes. -/
theorem c5_alignment_invariant_witness :
    (32768 : Nat) = 2 ^ 15 ∧
    ((∀ off ∈ RootImageBuilder.moduleOffsets 32768
        (RootImageBuilder.initialModuleOffset 32768 1) [5, 100], off % 32768 = 0) ∧
     List.Chain' (fun a b => a ≤ b)
       (RootImageBuilder.cursorTrace 32768
         (RootImageBuilder.initialModuleOffset 32768 1) [5, 100])) :=
  ⟨by norm_num, c5_alignment_invariant 15 1 [5, 100] 32768 (by norm_num)⟩

/-- toLEbytes always produces exactly len bytes. -/
theorem toLEbytes_length (len : Nat) : ∀ n : Nat, (toLEbytes len n).length = len := by
  induction len with
  | zero => intro n; rfl
  | succ m ih => intro n; simp [toLEbytes, ih]

/-- Lines 392-404 with a truthy alignment argument: on success the state
records the alignment in ALIGNMENT_VALUE and dir1_offset and leaves
size_of_directory_entry at 12. -/
theorem applyAlignmentArgs_ok (a copies : Nat) (st1 : FlashState) (ha : a ≠ 0)
    (h : applyAlignmentArgs a copies ({} : FlashState) = .ok st1) :
    st1.dir1_offset = a ∧ st1.ALIGNMENT_VALUE = a ∧
      st1.config.size_of_directory_entry = 12 := by
  unfold applyAlignmentArgs at h
  rw [if_pos ha] at h
  by_cases hb : a &&& (a - 1) ≠ 0
  · rw [if_pos hb] at h
    simp [Bind.bind, Except.bind] at h
  · rw [if_neg hb] at h
    simp only [Bind.bind, Except.bind, pure, Except.pure] at h
    by_cases hc : copies ≠ 0
    · rw [if_pos hc] at h
      have hc1 : ¬ copies < 1 := by omega
      rw [if_neg hc1] at h
      cases h
      exact ⟨rfl, rfl, rfl⟩
    · rw [if_neg hc] at h
      cases h
      exact ⟨rfl, rfl, rfl⟩

/-- Lines 453-458: on success the manual StartOfDirectory passed both
validations, and only the header field start_of_directory changed. -/
theorem applyStartOfDirectory_ok (sdo : Nat) (st st2 : FlashState)
    (h : applyStartOfDirectory sdo st = .ok st2) :
    sdo % st.ALIGNMENT_VALUE = 0 ∧ st.dir1_offset ≤ sdo ∧
      st2 = { st with config := { st.config with start_of_directory := sdo } } := by
  unfold applyStartOfDirectory at h
  by_cases h1 : sdo % st.ALIGNMENT_VALUE ≠ 0
  · rw [if_pos (by simpa using h1)] at h
    cases h
  · rw [if_neg (by simpa using h1)] at h
    by_cases h2 : sdo < st.dir1_offset
    · rw [if_pos (by simpa using h2)] at h
      cases h
    · rw [if_neg (by simpa using h2)] at h
      cases h
      exact ⟨by simpa using h1, by omega, rfl⟩

/-- C10: in every completed root-image build, the start_of_directory
field written in the RootConfigHeader equals dir1_offset, the first
directory region base (which is the alignment value whenever the
alignment argument is truthy); a manually supplied StartOfDirectory is
alignment- and range-validated but then discarded, so a build given a
manual value produces exactly the same final header state as a build
given none, and the serialized header carries dir1_offset in the
start_of_directory slot at byte offset 20. -/
theorem c10_start_of_directory_overwritten :
    (∀ (a copies n : Nat) (sdo : Option Nat) (out : FlashState),
      writeFlashHeader a copies sdo n = .ok out →
      out.config.start_of_directory = out.dir1_offset) ∧
    (∀ (a copies n sdo : Nat) (out : FlashState), a ≠ 0 →
      writeFlashHeader a copies (some sdo) n = .ok out →
      out.config.start_of_directory = a ∧ sdo % a = 0 ∧ a ≤ sdo) ∧
    (∀ (a copies n sdo : Nat) (out : FlashState),
      writeFlashHeader a copies (some sdo) n = .ok out →
      writeFlashHeader a copies none n = .ok out) ∧
    (∀ (a copies n : Nat) (sdo : Option Nat) (out : FlashState) (bs : List Nat),
      writeFlashHeader a copies sdo n = .ok out →
      out.config.get_configuration = some bs →
      (bs.drop 20).take 4 = toLEbytes 4 out.dir1_offset) := by
  have hmain : ∀ (a copies n : Nat) (sdo : Option Nat) (out : FlashState),
      writeFlashHeader a copies sdo n = .ok out →
      ∃ st1 : FlashState, applyAlignmentArgs a copies {} = .ok st1 ∧
        out = finalizeHeader n st1 ∧
        (∀ v, sdo = some v → v % st1.ALIGNMENT_VALUE = 0 ∧ st1.dir1_offset ≤ v) := by
    intro a copies n sdo out h
    unfold writeFlashHeader at h
    cases happ : applyAlignmentArgs a copies ({} : FlashState) with
    | error e => rw [happ] at h; simp [Bind.bind, Except.bind] at h
    | ok st1 =>
      rw [happ] at h
      cases sdo with
      | none =>
        simp only [Bind.bind, Except.bind, pure, Except.pure] at h
        cases h
        exact ⟨st1, rfl, rfl, fun v hv => by cases hv⟩
      | some v =>
        simp only [Bind.bind, Except.bind] at h
        cases hsd : applyStartOfDirectory v st1 with
        | error e => rw [hsd] at h; simp at h
        | ok st2 =>
          rw [hsd] at h
          simp only [pure, Except.pure] at h
          cases h
          obtain ⟨hv1, hv2, hst2⟩ := applyStartOfDirectory_ok v st1 st2 hsd
          refine ⟨st1, rfl, ?_, fun w hw => by cases hw; exact ⟨hv1, hv2⟩⟩
          rw [hst2]
          rfl
  refine ⟨?_, ?_, ?_, ?_⟩
  · intro a copies n sdo out h
    obtain ⟨st1, _, hout, _⟩ := hmain a copies n sdo out h
    rw [hout]
    rfl
  · intro a copies n sdo out ha h
    obtain ⟨st1, happ, hout, hval⟩ := hmain a copies n (some sdo) out h
    obtain ⟨hd, hA, _⟩ := applyAlignmentArgs_ok a copies st1 ha happ
    obtain ⟨hv1, hv2⟩ := hval sdo rfl
    refine ⟨?_, ?_, ?_⟩
    · rw [hout]
      show st1.dir1_offset = a
      exact hd
    · rw [← hA]; exact hv1
    · rw [← hd]; exact hv2
  · intro a copies n sdo out h
    obtain ⟨st1, happ, hout, _⟩ := hmain a copies n (some sdo) out h
    unfold writeFlashHeader
    rw [happ]
    simp only [Bind.bind, Except.bind, pure, Except.pure]
    rw [hout]
  · intro a copies n sdo out bs h hbs
    have hfield : out.config.start_of_directory = out.dir1_offset := by
      obtain ⟨st1, _, hout, _⟩ := hmain a copies n sdo out h
      rw [hout]; rfl
    unfold RfsConfiguration.get_configuration at hbs
    by_cases hfit : out.config.signature < 2 ^ 32 ∧
        out.config.layout_version < 2 ^ 32 ∧ out.config.update_count < 2 ^ 32 ∧
        out.config.control_field < 2 ^ 32 ∧
        out.config.start_of_directory < 2 ^ 32 ∧
        out.config.size_of_directory < 2 ^ 32 ∧
        out.config.count_of_directories < 2 ^ 32 ∧
        out.config.size_of_directory_entry < 2 ^ 32 ∧
        out.config.uid_of_firmware_to_boot < 2 ^ 32
    · rw [if_pos hfit] at hbs
      cases hbs
      simp only [List.append_assoc]
      rw [show (20 : Nat) = 4 + (4 + (4 + (4 + 4))) from rfl]
      rw [← List.drop_drop, ← List.drop_drop, ← List.drop_drop, ← List.drop_drop]
      rw [List.drop_left' (toLEbytes_length 4 _), List.drop_left' (toLEbytes_length 4 _),
        List.drop_left' (toLEbytes_length 4 _), List.drop_left' (toLEbytes_length 4 _),
        List.drop_left' (toLEbytes_length 4 _)]
      rw [List.take_left' (toLEbytes_length 4 _), hfield]
    · rw [if_neg hfit] at hbs
      cases hbs

/-- The header state produced by writeFlashHeader at alignment 0x8000,
one directory copy and three directory entries. -/
def exampleHeaderState : FlashState :=
  { ALIGNMENT_VALUE := 0x8000,
    dir1_offset := 0x8000,
    dir_copies := 1,
    config :=
      { signature := 0x4343534C,
        layout_version := 1,
        update_count := 1,
        control_field := 0xFFFFFFFE,
        start_of_directory := 0x8000,
        size_of_directory := 36,
        count_of_directories := 1,
        size_of_directory_entry := 12,
        uid_of_firmware_to_boot := 0x1001 } }

/-- Witness for c10_start_of_directory_overwritten at alignment 0x8000,
one directory copy, manual StartOfDirectory 0x10000 and three directory
entries: the build succeeds and writes 0x8000, not 0x10000. -/
theorem c10_start_of_directory_witness :
    (∃ out : FlashState, writeFlashHeader 0x8000 1 (some 0x10000) 3 = .ok out ∧
      out.config.start_of_directory = 0x8000 ∧
      (0x10000 : Nat) % 0x8000 = 0 ∧ (0x8000 : Nat) ≤ 0x10000) := by
  have hout : writeFlashHeader 0x8000 1 (some 0x10000) 3
      = .ok exampleHeaderState := by rfl
  refine ⟨_, hout, ?_⟩
  have h := c10_start_of_directory_overwritten.2.1 0x8000 1 3 0x10000 _
    (by norm_num) hout
  exact ⟨h.1, h.2.1, h.2.2⟩

/-- C4: two root-image builds in one Python process, each with a freshly
constructed FlashLayout and its own Directory() instance, each adding
the single GARD firmware module (uid 0x1001, 16 bytes).  Because
Directory.dir_entries is a class attribute, the first build leaves its
entry in the list the second builds Directory() instance reads, so the
second build raises the duplicate-identifier ValueError instead of
producing the same bytes: determinism across builds fails in the code
even though both builds have identical inputs and settings. -/
theorem c4_second_build_sees_first_builds_entries :
    (rootImageBuild [] [(0x1001, 16)]).2
        = .ok (toLEbytes 4 0x1001 ++ toLEbytes 4 0x8000 ++ toLEbytes 4 16) ∧
    (rootImageBuild (rootImageBuild [] [(0x1001, 16)]).1 [(0x1001, 16)]).2
        = .error .duplicateUID := by
  exact ⟨rfl, rfl⟩

/-- Expected layout outcome of the C1 failing build: no --basicconf
argument and one command (uid 0x1011, 8 bytes). -/
def c1Output : CamOutput :=
  { payload_base := 12,
    writes := [(BASIC_CAMERA_CONFIG, 12, 60), (0x1011, 72, 8)],
    dir_bytes :=
      (toLEbytes 4 0x1001 ++ toLEbytes 4 12 ++ toLEbytes 4 60) ++
        ((toLEbytes 4 0x1011 ++ toLEbytes 4 72 ++ toLEbytes 4 8) ++ []) }

/-- C1: a camera-container build with no --basicconf argument and one
command reserves only 1 * 12 = 12 bytes for the directory (the basic
entry is counted only when args.basicconf is truthy) yet always writes
the CameraBasicInfo record and its directory entry, so two entries (24
bytes) are serialized at offset 0 and the directory overlaps the first
12 bytes of the CameraBasicInfo payload that starts at offset 12: the
claimed equality between the reserved region and the serialized entry
count times 12, and the claimed non-overlap, both fail. -/
theorem c1_directory_overlaps_basic_info :
    write_camera_config_layout { basicconf := false, camconfcmnd := [(0x1011, 8)] }
        = .ok c1Output ∧
    c1Output.payload_base = 12 ∧
    c1Output.dir_bytes.length = 24 ∧
    c1Output.writes.head? = some (BASIC_CAMERA_CONFIG, 12, 60) ∧
    ¬ c1Output.dir_bytes.length ≤ c1Output.payload_base := by
  exact ⟨rfl, rfl, by decide, rfl, by decide⟩

/-- C3: the register-script record 0x10,0xFF,0xFF,0xFF,0xFF,0x01 has
first parsed byte 0x10 (inside 0x01..0x7F), so per the claim it must be
emitted as a grouped normal row (count 1, length 5).  The code instead
re-detects special records in generate_bin by the byte pattern of the
stored entry, and this post-strip entry begins with 0xFF 0xFF 0xFF 0xFF
with length 5, so it is written verbatim with no count/length header,
contradicting the claim and the class docstring. -/
theorem c3_normal_record_emitted_verbatim :
    lineVals (lineParts (clean_line (pyStrip "0x10,0xFF,0xFF,0xFF,0xFF,0x01".data)))
        = [0x10, 0xFF, 0xFF, 0xFF, 0xFF, 0x01] ∧
    generate_bin ["0x10,0xFF,0xFF,0xFF,0xFF,0x01".data]
        = some [0xFF, 0xFF, 0xFF, 0xFF, 0x01] ∧
    generate_bin ["0x10,0xFF,0xFF,0xFF,0xFF,0x01".data]
        ≠ some [0x01, 0x00, 0x00, 0x00, 0x05, 0xFF, 0xFF, 0xFF, 0xFF, 0x01] := by
  exact ⟨by decide, by decide, by decide⟩

/-- C7: a register-script record whose first parsed byte is at least
0x80 (parsed bytes are below 256) becomes the entry 0xFF 0xFF 0xFF 0xFF
0x04, the 4-byte little-endian first - 0x80, then the remaining bytes
verbatim; generate_bin writes such an entry as-is after flushing the
pending normal group, with no length prefix and no grouping; and the
record with parsed bytes [0x85, 0x01, 0x02] produces exactly the 11
bytes FF FF FF FF 04 05 00 00 00 01 02. -/
theorem c7_special_record_encoding :
    (∀ (first : Nat) (rest : List Nat), 0x80 ≤ first → first < 256 →
      record_entry (first :: rest)
        = some ([0xFF, 0xFF, 0xFF, 0xFF, 0x04] ++ toLEbytes 4 (first - 0x80) ++ rest)) ∧
    (∀ (buf : List (List Nat)) (e : List Nat) (rest : List (List Nat)),
      5 ≤ e.length → e.take 4 = [0xFF, 0xFF, 0xFF, 0xFF] →
      generate_bin_go buf (e :: rest)
        = (write_normal_buffer buf).bind (fun flushed =>
            (generate_bin_go [] rest).map (fun out => flushed ++ e ++ out))) ∧
    generate_bin ["0x85, 0x01, 0x02".data]
        = some [0xFF, 0xFF, 0xFF, 0xFF, 0x04, 0x05, 0x00, 0x00, 0x00, 0x01, 0x02] := by
  refine ⟨?_, ?_, by decide⟩
  · intro first rest h1 h2
    have hlt : first - 0x80 < 2 ^ 32 := by
      have h3 : (2 : Nat) ^ 32 = 4294967296 := by norm_num
      omega
    show (if first = 0 then none
        else if 0x80 ≤ first then
          some ([0xFF, 0xFF, 0xFF, 0xFF, 0x04] ++
            toLEbytes 4 ((first - 0x80) % 2 ^ 32) ++ rest)
        else some rest)
      = some ([0xFF, 0xFF, 0xFF, 0xFF, 0x04] ++ toLEbytes 4 (first - 0x80) ++ rest)
    rw [if_neg (by omega), if_pos h1, Nat.mod_eq_of_lt hlt]
  · intro buf e rest h1 h2
    show (if 5 ≤ e.length ∧ e.take 4 = [0xFF, 0xFF, 0xFF, 0xFF] then
        (write_normal_buffer buf).bind (fun flushed =>
          (generate_bin_go [] rest).map (fun out => flushed ++ e ++ out))
      else generate_bin_go (buf ++ [e]) rest)
      = (write_normal_buffer buf).bind (fun flushed =>
          (generate_bin_go [] rest).map (fun out => flushed ++ e ++ out))
    rw [if_pos ⟨h1, h2⟩]

/-- Witness for c7_special_record_encoding: the record [0x85, 0x01, 0x02]
for the classification conjunct, and a 5-byte special-shaped entry
arriving while one normal row is buffered for the flush conjunct. -/
theorem c7_special_record_encoding_witness :
    ((0x80 : Nat) ≤ 0x85 ∧ (0x85 : Nat) < 256 ∧
      record_entry [0x85, 0x01, 0x02]
        = some ([0xFF, 0xFF, 0xFF, 0xFF, 0x04] ++
            toLEbytes 4 (0x85 - 0x80) ++ [0x01, 0x02])) ∧
    (5 ≤ ([0xFF, 0xFF, 0xFF, 0xFF, 0x01] : List Nat).length ∧
      ([0xFF, 0xFF, 0xFF, 0xFF, 0x01] : List Nat).take 4 = [0xFF, 0xFF, 0xFF, 0xFF] ∧
      generate_bin_go [[0x22]] [[0xFF, 0xFF, 0xFF, 0xFF, 0x01]]
        = (write_normal_buffer [[0x22]]).bind (fun flushed =>
            (generate_bin_go [] []).map
              (fun out => flushed ++ [0xFF, 0xFF, 0xFF, 0xFF, 0x01] ++ out))) :=
  ⟨⟨by decide, by decide,
      c7_special_record_encoding.1 0x85 [0x01, 0x02] (by decide) (by decide)⟩,
   ⟨by decide, by decide,
      c7_special_record_encoding.2.1 [[0x22]] [0xFF, 0xFF, 0xFF, 0xFF, 0x01] []
        (by decide) (by decide)⟩⟩

/-- The register-script line consisting of the byte 1 followed by 256
further 1 bytes, comma separated: its normal row after dropping the
first byte has 256 bytes, one more than fits the 1-byte row length. -/
def c8LongLine : List Char := '1' :: (List.replicate 256 [',', '1']).flatten

/-- C8 counterexample: on the 257-field line the record is a normal row
of 256 bytes; its group header needs the row length in one byte, and
256 does not fit, so to_bytes raises OverflowError (modelled by none)
and the claimed count/length/rows emission does not happen. -/
theorem c8_overlong_row_counterexample :
    extract_entries [c8LongLine] = [List.replicate 256 1] ∧
    generate_bin [c8LongLine] = none := by
  constructor
  · decide
  · decide

/-- Encoding of one maximal run: 4-byte little-endian row count, 1-byte
row length, then the rows in order. -/
def encodeRun (p : Nat × List (List Nat)) : List Nat :=
  toLEbytes 4 p.2.length ++ [p.1] ++ p.2.flatten

/-- A run as the claim describes it: a nonempty batch of rows of equal
length L, with L encodable in one byte and the count in four. -/
def goodRun (p : Nat × List (List Nat)) : Prop :=
  p.2 ≠ [] ∧ (∀ r ∈ p.2, r.length = p.1) ∧ p.1 < 256 ∧ p.2.length < 2 ^ 32

instance (p : Nat × List (List Nat)) : Decidable (goodRun p) :=
  inferInstanceAs (Decidable (p.2 ≠ [] ∧ (∀ r ∈ p.2, r.length = p.1) ∧
    p.1 < 256 ∧ p.2.length < 2 ^ 32))

/-- Row adjustment is the identity on a row that already has the group
length. -/
theorem padRow_eq (L : Nat) (r : List Nat) (h : r.length = L) :
    padRow L r = r := by
  unfold padRow
  rw [List.take_of_length_le h.le, List.take_left' h]

/-- The grouping loop absorbs a uniform batch of rows into the running
count. -/
theorem groupRunsGo_uniform (L : Nat) (rows rest : List (List Nat))
    (hrows : ∀ r ∈ rows, r.length = L) :
    ∀ cnt, groupRunsGo L cnt (rows ++ rest) = groupRunsGo L (cnt + rows.length) rest := by
  induction rows with
  | nil => intro cnt; rfl
  | cons r rows2 ih =>
    intro cnt
    have hr : r.length = L := hrows r (List.mem_cons_self r rows2)
    show (if r.length = L then groupRunsGo L (cnt + 1) (rows2 ++ rest)
        else (cnt, L) :: groupRunsGo r.length 1 (rows2 ++ rest))
      = groupRunsGo L (cnt + (r :: rows2).length) rest
    rw [if_pos hr,
      ih (fun x hx => hrows x (List.mem_cons_of_mem r hx)) (cnt + 1)]
    have h : cnt + 1 + rows2.length = cnt + (r :: rows2).length := by
      simp [List.length_cons]
      omega
    rw [h]

/-- The grouping loop closes the current run when the next row has a
different length, or at the end of the buffer. -/
theorem groupRunsGo_break (L cnt : Nat) (rest : List (List Nat))
    (hrest : ∀ r2, rest.head? = some r2 → r2.length ≠ L) :
    groupRunsGo L cnt rest = (cnt, L) :: groupRuns rest := by
  cases rest with
  | nil => rfl
  | cons r2 rest2 =>
    show groupRunsGo L cnt (r2 :: rest2) = _
    unfold groupRunsGo
    rw [if_neg (hrest r2 rfl)]
    rfl

/-- The write loop emits one whole uniform group and continues on the
rest of the buffer. -/
theorem emitGroups_cons (L : Nat) (rows buf2 : List (List Nat))
    (gs : List (Nat × Nat))
    (hrows : ∀ r ∈ rows, r.length = L) (hcnt : rows.length < 2 ^ 32)
    (hL : L < 256) :
    emitGroups (rows ++ buf2) ((rows.length, L) :: gs)
      = (emitGroups buf2 gs).map
          (fun rest => toLEbytes 4 rows.length ++ [L] ++ rows.flatten ++ rest) := by
  have hhdr : pyToBytes 4 rows.length = some (toLEbytes 4 rows.length) := by
    unfold pyToBytes
    rw [if_pos (by norm_num; omega)]
  have hlen : pyToBytes 1 L = some [L] := by
    unfold pyToBytes
    rw [if_pos (by norm_num; omega)]
    show some [L % 256] = some [L]
    rw [Nat.mod_eq_of_lt hL]
  have hpad : (rows ++ buf2).take rows.length = rows := List.take_left rows buf2
  have hdrop : (rows ++ buf2).drop rows.length = buf2 := List.drop_left rows buf2
  have hmap : rows.map (padRow L) = rows := by
    rw [List.map_congr_left (fun r hr => padRow_eq L r (hrows r hr))]
    exact List.map_id' rows
  show (pyToBytes 4 rows.length).bind (fun hdr =>
      (pyToBytes 1 L).bind (fun lenByte =>
        (emitGroups ((rows ++ buf2).drop rows.length) gs).bind (fun rest =>
          some (hdr ++ lenByte ++ (((rows ++ buf2).take rows.length).map
            (padRow L)).flatten ++ rest))))
    = (emitGroups buf2 gs).map
        (fun rest => toLEbytes 4 rows.length ++ [L] ++ rows.flatten ++ rest)
  rw [hhdr, hlen, hpad, hdrop, hmap]
  cases emitGroups buf2 gs <;> rfl

/-- The empty-buffer guard of write_normal_buffer agrees with running the
write loop on the grouped buffer in every case. -/
theorem write_normal_buffer_eq (buf : List (List Nat)) :
    write_normal_buffer buf = emitGroups buf (groupRuns buf) := by
  unfold write_normal_buffer
  by_cases h : buf = []
  · rw [if_pos h, h]
    rfl
  · rw [if_neg h]

/-- Concatenating the runs of the claim and running write_normal_buffer
emits exactly one count/length/rows group per run, in order. -/
theorem write_normal_buffer_runs :
    ∀ runs : List (Nat × List (List Nat)),
      (∀ p ∈ runs, goodRun p) →
      List.Chain' (fun p q => p.1 ≠ q.1) runs →
      write_normal_buffer ((runs.map Prod.snd).flatten)
        = some ((runs.map encodeRun).flatten) := by
  intro runs
  induction runs with
  | nil => intro _ _; rfl
  | cons p runs2 ih =>
    intro hgood hchain
    obtain ⟨L, rows⟩ := p
    obtain ⟨hne, hunif, hL, hcnt⟩ := hgood (L, rows) (List.mem_cons_self _ _)
    have hgood2 : ∀ q ∈ runs2, goodRun q :=
      fun q hq => hgood q (List.mem_cons_of_mem _ hq)
    have hchain2 : List.Chain' (fun p q => p.1 ≠ q.1) runs2 :=
      (List.chain'_cons'.mp hchain).2
    have hheadne : ∀ r2, ((runs2.map Prod.snd).flatten).head? = some r2 →
        r2.length ≠ L := by
      intro r2 hr2
      cases runs2 with
      | nil => simp at hr2
      | cons q runs3 =>
        obtain ⟨hq_ne, hq_unif, _, _⟩ := hgood2 q (List.mem_cons_self _ _)
        have hLq : q.1 ≠ L := by
          have hrel := (List.chain'_cons'.mp hchain).1 q (by simp)
          exact fun hc => hrel hc.symm
        obtain ⟨s0, s2, hq2⟩ := List.exists_cons_of_ne_nil hq_ne
        have hflat : ((q :: runs3).map Prod.snd).flatten
            = s0 :: (s2 ++ ((runs3.map Prod.snd).flatten)) := by
          simp [hq2]
        rw [hflat] at hr2
        have hs0 : s0 = r2 := by simpa using hr2
        have hs0len : r2.length = q.1 := by
          refine hq_unif r2 ?_
          rw [hq2, hs0]
          exact List.mem_cons_self _ _
        rw [hs0len]
        exact hLq
    obtain ⟨r0, rows2, hrows0⟩ := List.exists_cons_of_ne_nil hne
    have hrows : rows = r0 :: rows2 := hrows0
    have hbuf : ((((L, rows) :: runs2).map Prod.snd).flatten)
        = r0 :: (rows2 ++ (runs2.map Prod.snd).flatten) := by
      show (rows ++ (runs2.map Prod.snd).flatten) = _
      rw [hrows]
      rfl
    rw [hbuf, write_normal_buffer_eq]
    have hgr : groupRuns (r0 :: (rows2 ++ (runs2.map Prod.snd).flatten))
        = (rows.length, L) :: groupRuns ((runs2.map Prod.snd).flatten) := by
      show groupRunsGo r0.length 1 (rows2 ++ (runs2.map Prod.snd).flatten) = _
      have hr0 : r0.length = L := hunif r0 (by rw [hrows]; exact List.mem_cons_self _ _)
      rw [hr0]
      rw [groupRunsGo_uniform L rows2 _
        (fun x hx => hunif x (by rw [hrows]; exact List.mem_cons_of_mem r0 hx)) 1]
      rw [groupRunsGo_break L _ _ hheadne]
      have hlen : 1 + rows2.length = rows.length := by
        rw [hrows]
        simp [List.length_cons]
        omega
      rw [hlen]
    rw [hgr]
    have hcons : r0 :: (rows2 ++ (runs2.map Prod.snd).flatten)
        = rows ++ (runs2.map Prod.snd).flatten := by
      rw [hrows]
      rfl
    rw [hcons]
    rw [emitGroups_cons L rows _ _ hunif hcnt hL]
    rw [← write_normal_buffer_eq, ih hgood2 hchain2]
    simp [encodeRun, List.append_assoc]

/-- An entry that the generate_bin loop writes verbatim after flushing
the buffer: at least 5 bytes whose first four are 0xFF 0xFF 0xFF 0xFF.
Every special record (first parsed byte at least 0x80) has this shape,
and so does the stored entry of a normal record whose post-strip bytes
begin 0xFF 0xFF 0xFF 0xFF with length at least 5 (the C3 divergence). -/
def verbatimShaped (e : List Nat) : Prop :=
  5 ≤ e.length ∧ e.take 4 = [0xFF, 0xFF, 0xFF, 0xFF]

instance (e : List Nat) : Decidable (verbatimShaped e) :=
  inferInstanceAs (Decidable (_ ∧ _))

/-- A batch of buffered rows between two verbatim-shaped entries, given
as its maximal runs: every run is good (nonempty, uniform length below
256, count below 2^32), none of its rows is itself verbatim-shaped
(such a record would not be buffered), and adjacent runs have distinct
lengths (maximality). -/
def goodBatch (runs : List (Nat × List (List Nat))) : Prop :=
  (∀ p ∈ runs, goodRun p ∧ ∀ r ∈ p.2, ¬ verbatimShaped r) ∧
  List.Chain' (fun p q => p.1 ≠ q.1) runs

/-- The stored entry stream described by row batches separated by
verbatim-shaped entries: each pair contributes its batch rows then its
verbatim entry, and the final batch ends the input. -/
def transcoderEntries :
    List (List (Nat × List (List Nat)) × List Nat) →
    List (Nat × List (List Nat)) → List (List Nat)
  | [], final => (final.map Prod.snd).flatten
  | (runs, v) :: ps, final =>
    (runs.map Prod.snd).flatten ++ v :: transcoderEntries ps final

/-- The output bytes the claim assigns to such a stream: each maximal
run becomes its count/length/rows group, each verbatim-shaped entry is
copied unchanged, everything in input order. -/
def transcoderOutput :
    List (List (Nat × List (List Nat)) × List Nat) →
    List (Nat × List (List Nat)) → List Nat
  | [], final => (final.map encodeRun).flatten
  | (runs, v) :: ps, final =>
    (runs.map encodeRun).flatten ++ v ++ transcoderOutput ps final

/-- A verbatim-shaped entry flushes the buffered rows and is then
written unchanged. -/
theorem generate_bin_go_flush (buf : List (List Nat)) (e : List Nat)
    (rest : List (List Nat)) (h : verbatimShaped e) :
    generate_bin_go buf (e :: rest)
      = (write_normal_buffer buf).bind (fun flushed =>
          (generate_bin_go [] rest).map (fun out => flushed ++ e ++ out)) := by
  show (if 5 ≤ e.length ∧ e.take 4 = [0xFF, 0xFF, 0xFF, 0xFF] then
      (write_normal_buffer buf).bind (fun flushed =>
        (generate_bin_go [] rest).map (fun out => flushed ++ e ++ out))
    else generate_bin_go (buf ++ [e]) rest)
    = (write_normal_buffer buf).bind (fun flushed =>
        (generate_bin_go [] rest).map (fun out => flushed ++ e ++ out))
  rw [if_pos (show 5 ≤ e.length ∧ e.take 4 = [0xFF, 0xFF, 0xFF, 0xFF] from h)]

/-- Entries that are not verbatim-shaped are appended to the buffer one
by one without emitting anything. -/
theorem generate_bin_go_absorb (rows : List (List Nat))
    (h : ∀ r ∈ rows, ¬ verbatimShaped r) :
    ∀ buf rest, generate_bin_go buf (rows ++ rest)
      = generate_bin_go (buf ++ rows) rest := by
  induction rows with
  | nil =>
    intro buf rest
    rw [List.nil_append, List.append_nil]
  | cons r rows2 ih =>
    intro buf rest
    show (if 5 ≤ r.length ∧ r.take 4 = [0xFF, 0xFF, 0xFF, 0xFF] then
        (write_normal_buffer buf).bind (fun flushed =>
          (generate_bin_go [] (rows2 ++ rest)).map (fun out => flushed ++ r ++ out))
      else generate_bin_go (buf ++ [r]) (rows2 ++ rest))
      = generate_bin_go (buf ++ r :: rows2) rest
    rw [if_neg (show ¬ (5 ≤ r.length ∧ r.take 4 = [0xFF, 0xFF, 0xFF, 0xFF]) from
      h r (List.mem_cons_self r rows2))]
    rw [ih (fun x hx => h x (List.mem_cons_of_mem r hx)) (buf ++ [r]) rest]
    rw [List.append_assoc]
    rfl

/-- Running the generate_bin loop on a stream of row batches separated
by verbatim-shaped entries yields one group per maximal run and each
verbatim entry unchanged. -/
theorem generate_bin_go_blocks (final : List (Nat × List (List Nat)))
    (hfinal : goodBatch final) :
    ∀ ps : List (List (Nat × List (List Nat)) × List Nat),
      (∀ pr ∈ ps, goodBatch pr.1 ∧ verbatimShaped pr.2) →
      generate_bin_go [] (transcoderEntries ps final)
        = some (transcoderOutput ps final) := by
  intro ps
  induction ps with
  | nil =>
    intro _
    show generate_bin_go [] ((final.map Prod.snd).flatten)
      = some ((final.map encodeRun).flatten)
    have hrows : ∀ r ∈ (final.map Prod.snd).flatten, ¬ verbatimShaped r := by
      intro r hr
      obtain ⟨rows, hrowsmem, hrmem⟩ := List.mem_flatten.mp hr
      obtain ⟨p, hp, hp2⟩ := List.mem_map.mp hrowsmem
      exact (hfinal.1 p hp).2 r (by rw [hp2]; exact hrmem)
    have habs := generate_bin_go_absorb ((final.map Prod.snd).flatten) hrows [] []
    rw [List.append_nil, List.nil_append] at habs
    rw [habs]
    exact write_normal_buffer_runs final (fun p hp => (hfinal.1 p hp).1) hfinal.2
  | cons pr ps2 ih =>
    intro hps
    obtain ⟨runs, v⟩ := pr
    obtain ⟨hbatch, hv⟩ := hps (runs, v) (List.mem_cons_self _ _)
    have hps2 : ∀ q ∈ ps2, goodBatch q.1 ∧ verbatimShaped q.2 :=
      fun q hq => hps q (List.mem_cons_of_mem _ hq)
    show generate_bin_go []
        ((runs.map Prod.snd).flatten ++ v :: transcoderEntries ps2 final)
      = some ((runs.map encodeRun).flatten ++ v ++ transcoderOutput ps2 final)
    have hrows : ∀ r ∈ (runs.map Prod.snd).flatten, ¬ verbatimShaped r := by
      intro r hr
      obtain ⟨rows, hrowsmem, hrmem⟩ := List.mem_flatten.mp hr
      obtain ⟨p, hp, hp2⟩ := List.mem_map.mp hrowsmem
      exact (hbatch.1 p hp).2 r (by rw [hp2]; exact hrmem)
    rw [generate_bin_go_absorb ((runs.map Prod.snd).flatten) hrows []
      (v :: transcoderEntries ps2 final)]
    rw [List.nil_append]
    rw [generate_bin_go_flush ((runs.map Prod.snd).flatten) v
      (transcoderEntries ps2 final) hv]
    rw [write_normal_buffer_runs runs (fun p hp => (hbatch.1 p hp).1) hbatch.2]
    rw [ih hps2]
    rfl

/-- C8 amended: for every transcoder input whose stored entries
decompose into batches of buffered normal rows separated by
verbatim-shaped entries (an entry of length at least 5 starting 0xFF
0xFF 0xFF 0xFF: every special record, and, per the C3 divergence, any
normal record whose post-strip bytes have that shape), and in which
every maximal run of adjacent equal-length rows has row length below
256 and row count below 2^32 (otherwise int.to_bytes raises
OverflowError, see the counterexample), generate_bin emits in input
order: each maximal run as a 4-byte little-endian row count, a 1-byte
row length and the rows in order, and each verbatim-shaped entry
unchanged.  A run therefore ends exactly when the row length changes,
a verbatim-shaped record intervenes, or input ends, and runs of the
same length that are not adjacent produce separate group headers. -/
theorem c8_grouping_of_normal_records
    (lines : List (List Char))
    (ps : List (List (Nat × List (List Nat)) × List Nat))
    (final : List (Nat × List (List Nat)))
    (hent : extract_entries lines = transcoderEntries ps final)
    (hps : ∀ pr ∈ ps, goodBatch pr.1 ∧ verbatimShaped pr.2)
    (hfinal : goodBatch final) :
    generate_bin lines = some (transcoderOutput ps final) := by
  unfold generate_bin
  rw [hent]
  exact generate_bin_go_blocks final hfinal ps hps

/-- Witness for c8_grouping_of_normal_records on five lines: a 5-byte
normal row, then a normal record whose post-strip bytes are FF FF FF
FF 01 (written verbatim, ending the first run), then a 1-byte row,
then the special record 0x85,0x01 (verbatim), then another 1-byte row:
the output is a count-1 length-5 group, the five verbatim bytes, a
count-1 length-1 group, the ten special-record bytes, and a final
count-1 length-1 group - the two length-1 runs stay separate. -/
theorem c8_grouping_witness :
    extract_entries ["0x10,0xAA,0xBB,0xCC,0xDD,0xEE".data,
        "0x10,0xFF,0xFF,0xFF,0xFF,0x01".data, "0x30,0x11".data,
        "0x85,0x01".data, "0x20,0x22".data]
      = transcoderEntries
          [([(5, [[0xAA, 0xBB, 0xCC, 0xDD, 0xEE]])], [0xFF, 0xFF, 0xFF, 0xFF, 0x01]),
            ([(1, [[0x11]])], [0xFF, 0xFF, 0xFF, 0xFF, 0x04, 0x05, 0x00, 0x00, 0x00, 0x01])]
          [(1, [[0x22]])] ∧
    (∀ pr ∈ ([([(5, [[0xAA, 0xBB, 0xCC, 0xDD, 0xEE]])], [0xFF, 0xFF, 0xFF, 0xFF, 0x01]),
        ([(1, [[0x11]])], [0xFF, 0xFF, 0xFF, 0xFF, 0x04, 0x05, 0x00, 0x00, 0x00, 0x01])] :
          List (List (Nat × List (List Nat)) × List Nat)),
      goodBatch pr.1 ∧ verbatimShaped pr.2) ∧
    goodBatch [(1, [[0x22]])] ∧
    generate_bin ["0x10,0xAA,0xBB,0xCC,0xDD,0xEE".data,
        "0x10,0xFF,0xFF,0xFF,0xFF,0x01".data, "0x30,0x11".data,
        "0x85,0x01".data, "0x20,0x22".data]
      = some (transcoderOutput
          [([(5, [[0xAA, 0xBB, 0xCC, 0xDD, 0xEE]])], [0xFF, 0xFF, 0xFF, 0xFF, 0x01]),
            ([(1, [[0x11]])], [0xFF, 0xFF, 0xFF, 0xFF, 0x04, 0x05, 0x00, 0x00, 0x00, 0x01])]
          [(1, [[0x22]])]) ∧
    transcoderOutput
        [([(5, [[0xAA, 0xBB, 0xCC, 0xDD, 0xEE]])], [0xFF, 0xFF, 0xFF, 0xFF, 0x01]),
          ([(1, [[0x11]])], [0xFF, 0xFF, 0xFF, 0xFF, 0x04, 0x05, 0x00, 0x00, 0x00, 0x01])]
        [(1, [[0x22]])]
      = [0x01, 0x00, 0x00, 0x00, 0x05, 0xAA, 0xBB, 0xCC, 0xDD, 0xEE,
          0xFF, 0xFF, 0xFF, 0xFF, 0x01,
          0x01, 0x00, 0x00, 0x00, 0x01, 0x11,
          0xFF, 0xFF, 0xFF, 0xFF, 0x04, 0x05, 0x00, 0x00, 0x00, 0x01,
          0x01, 0x00, 0x00, 0x00, 0x01, 0x22] := by
  have hps : ∀ pr ∈ ([([(5, [[0xAA, 0xBB, 0xCC, 0xDD, 0xEE]])],
        [0xFF, 0xFF, 0xFF, 0xFF, 0x01]),
      ([(1, [[0x11]])], [0xFF, 0xFF, 0xFF, 0xFF, 0x04, 0x05, 0x00, 0x00, 0x00, 0x01])] :
        List (List (Nat × List (List Nat)) × List Nat)),
      goodBatch pr.1 ∧ verbatimShaped pr.2 := by
    intro pr hpr
    fin_cases hpr
    · exact ⟨⟨by decide, List.chain'_singleton _⟩, by decide⟩
    · exact ⟨⟨by decide, List.chain'_singleton _⟩, by decide⟩
  have hfinal : goodBatch [(1, [[0x22]])] := ⟨by decide, List.chain'_singleton _⟩
  refine ⟨by decide, hps, hfinal, ?_, by decide⟩
  exact c8_grouping_of_normal_records _ _ _ (by decide) hps hfinal

/-- Stripping a stripped token changes nothing. -/
theorem pyStrip_idem (cs : List Char) : pyStrip (pyStrip cs) = pyStrip cs := by
  unfold pyStrip
  have hstep1 : (((cs.dropWhile pySpace).reverse.dropWhile pySpace).reverse).dropWhile
      pySpace = ((cs.dropWhile pySpace).reverse.dropWhile pySpace).reverse := by
    cases hBr : ((cs.dropWhile pySpace).reverse.dropWhile pySpace).reverse with
    | nil => rfl
    | cons a rest =>
      have hlast : ((cs.dropWhile pySpace).reverse.dropWhile pySpace).getLast?
          = some a := by
        rw [← List.head?_reverse, hBr]
        rfl
      obtain ⟨t, ht⟩ :=
        List.dropWhile_suffix (l := (cs.dropWhile pySpace).reverse) pySpace
      have hlast2 : ((cs.dropWhile pySpace).reverse).getLast? = some a := by
        rw [← ht, List.getLast?_append, hlast]
        rfl
      have hheadA : (cs.dropWhile pySpace).head? = some a := by
        rw [← List.getLast?_reverse]
        exact hlast2
      have hh := List.head?_dropWhile_not pySpace cs
      rw [hheadA] at hh
      have hnp : pySpace a = false := hh
      exact List.dropWhile_cons_of_neg (by simp [hnp])
  rw [hstep1, List.reverse_reverse, List.dropWhile_idempotent]

/-- The token starts with 0x case-insensitively, as the spec words it:
its first character is 0 and its second is x or X. -/
def startsWith0xSpec : List Char → Prop
  | c1 :: c2 :: _ => c1 = '0' ∧ (c2 = 'x' ∨ c2 = 'X')
  | _ => False

instance : (t : List Char) → Decidable (startsWith0xSpec t)
  | [] => isFalse (fun h => h)
  | [_] => isFalse (fun h => h)
  | _ :: _ :: _ => inferInstanceAs (Decidable (_ ∧ _))

/-- A hexadecimal digit as the spec words it: 0-9, a-f or A-F (stated on
code points: 48-57, 97-102, 65-70). -/
def isHexDigitSpec (c : Char) : Prop :=
  (48 ≤ c.toNat ∧ c.toNat ≤ 57) ∨ (97 ≤ c.toNat ∧ c.toNat ≤ 102) ∨
    (65 ≤ c.toNat ∧ c.toNat ≤ 70)

instance (c : Char) : Decidable (isHexDigitSpec c) :=
  inferInstanceAs (Decidable (_ ∨ _ ∨ _))

/-- Byte parsing of one field as the spec states it: trim; an empty
field gives no byte; a field starting with 0x case-insensitively parses
as hex; otherwise a field whose characters are all hexadecimal digits
still parses as hex; otherwise decimal; the result is masked to one
byte, and a parse failure gives no byte. -/
def parse_bytes_spec (tok : List Char) : Option Nat :=
  let t := pyStrip tok
  if t = [] then none
  else if startsWith0xSpec t then (pyInt 16 t).map byteMask
  else if ∀ c ∈ t, isHexDigitSpec c then (pyInt 16 t).map byteMask
  else (pyInt 10 t).map byteMask

/-- Lowercasing a character yields the digit 0 exactly for the digit 0
itself. -/
theorem toLower_eq_zero_iff (c : Char) : c.toLower = '0' ↔ c = '0' := by
  unfold Char.toLower
  by_cases h : c.toNat ≥ 65 ∧ c.toNat ≤ 90
  · rw [if_pos h]
    obtain ⟨h1, h2⟩ := h
    have hc : c = Char.ofNat c.toNat := (Char.ofNat_toNat c).symm
    interval_cases hn : c.toNat <;> rw [hc] <;> decide
  · rw [if_neg h]

/-- Lowercasing a character yields x exactly for x and X. -/
theorem toLower_eq_x_iff (c : Char) : c.toLower = 'x' ↔ (c = 'x' ∨ c = 'X') := by
  unfold Char.toLower
  by_cases h : c.toNat ≥ 65 ∧ c.toNat ≤ 90
  · rw [if_pos h]
    obtain ⟨h1, h2⟩ := h
    have hc : c = Char.ofNat c.toNat := (Char.ofNat_toNat c).symm
    interval_cases hn : c.toNat <;> rw [hc] <;> decide
  · rw [if_neg h]
    constructor
    · intro hcx
      exact Or.inl hcx
    · rintro (hcx | hcX)
      · exact hcx
      · exfalso
        rw [hcX] at h
        exact h (by decide)

/-- Membership in the 0123456789abcdefABCDEF literal coincides with the
three code-point ranges of the spec. -/
theorem mem_hexDigitChars_iff (c : Char) :
    hexDigitChars.contains c = true ↔ isHexDigitSpec c := by
  unfold isHexDigitSpec
  constructor
  · intro h
    have hmem : c ∈ hexDigitChars := by
      simpa using (List.elem_iff).mp h
    fin_cases hmem <;> decide
  · intro h
    have hc : c = Char.ofNat c.toNat := (Char.ofNat_toNat c).symm
    rcases h with ⟨h1, h2⟩ | ⟨h1, h2⟩ | ⟨h1, h2⟩ <;>
      (interval_cases hn : c.toNat <;> rw [hc] <;> decide)

/-- The code-side test lower(token) starts with 0x coincides with the
spec-side first-two-characters test. -/
theorem startsWith0x_iff (t : List Char) :
    (t.map Char.toLower).take 2 = ['0', 'x'] ↔ startsWith0xSpec t := by
  cases t with
  | nil => simp [startsWith0xSpec]
  | cons c1 t2 =>
    cases t2 with
    | nil =>
      simp only [List.map_cons, List.map_nil, List.take, startsWith0xSpec]
      constructor
      · intro h
        exact absurd h (by simp)
      · intro h
        exact absurd h (fun h => h)
    | cons c2 t3 =>
      show ([c1.toLower, c2.toLower] : List Char) = ['0', 'x'] ↔ _
      rw [show startsWith0xSpec (c1 :: c2 :: t3)
          = (c1 = '0' ∧ (c2 = 'x' ∨ c2 = 'X')) from rfl]
      constructor
      · intro h
        have h1 : c1.toLower = '0' := by
          have := congrArg (fun l => List.head? l) h
          simpa using this
        have h2 : c2.toLower = 'x' := by
          have := congrArg (fun l => List.head? (List.drop 1 l)) h
          simpa using this
        exact ⟨(toLower_eq_zero_iff c1).mp h1, (toLower_eq_x_iff c2).mp h2⟩
      · rintro ⟨h1, h2⟩
        rw [(toLower_eq_zero_iff c1).mpr h1, (toLower_eq_x_iff c2).mpr h2]

/-- The code-side check_hex_str coincides on stripped tokens with the
spec-side nonempty all-hex-digits test. -/
theorem check_hex_str_iff (t : List Char) (ht : pyStrip t = t) :
    check_hex_str t = true ↔ (t ≠ [] ∧ ∀ c ∈ t, isHexDigitSpec c) := by
  unfold check_hex_str
  rw [ht]
  rw [Bool.and_eq_true]
  constructor
  · rintro ⟨h1, h2⟩
    refine ⟨?_, ?_⟩
    · intro he
      rw [he] at h1
      exact absurd h1 (by decide)
    · intro c hc
      have := (List.all_eq_true.mp h2) c hc
      exact (mem_hexDigitChars_iff c).mp this
  · rintro ⟨h1, h2⟩
    refine ⟨?_, ?_⟩
    · cases t with
      | nil => exact absurd rfl h1
      | cons a t2 => simp
    · rw [List.all_eq_true]
      intro c hc
      exact (mem_hexDigitChars_iff c).mpr (h2 c hc)

/-- C9: field parsing follows the spec rule for every token: the code
parse_bytes agrees with the spec-worded parse_bytes_spec everywhere; an
unprefixed all-digit token such as 30 yields the byte 0x30 = 48, not
decimal 30; and the vals loop keeps exactly the fields whose parse
succeeded, so a failing token contributes no byte to the record. -/
theorem c9_byte_field_parsing :
    (∀ tok : List Char, parse_bytes tok = parse_bytes_spec tok) ∧
    parse_bytes "30".data = some 48 ∧
    parse_bytes "30".data ≠ some 30 ∧
    (∀ parts : List (List Char), lineVals parts = parts.filterMap parse_bytes) := by
  refine ⟨?_, by decide, by decide, ?_⟩
  · intro tok
    unfold parse_bytes parse_bytes_spec
    by_cases h0 : pyStrip tok = []
    · rw [if_pos h0, if_pos h0]
    · rw [if_neg h0, if_neg h0]
      by_cases h1 : startsWith0xSpec (pyStrip tok)
      · rw [if_pos ((startsWith0x_iff (pyStrip tok)).mpr h1), if_pos h1]
      · rw [if_neg (fun hc => h1 ((startsWith0x_iff (pyStrip tok)).mp hc)),
          if_neg h1]
        by_cases h2 : ∀ c ∈ pyStrip tok, isHexDigitSpec c
        · rw [if_pos ((check_hex_str_iff (pyStrip tok) (pyStrip_idem tok)).mpr
            ⟨h0, h2⟩), if_pos h2]
        · rw [if_neg ?_, if_neg h2]
          intro hc
          exact h2 ((check_hex_str_iff (pyStrip tok) (pyStrip_idem tok)).mp hc).2
  · intro parts
    induction parts with
    | nil => rfl
    | cons p rest ih =>
      show (match parse_bytes p with
        | some b => b :: lineVals rest
        | none => lineVals rest) = _
      rw [List.filterMap_cons]
      cases parse_bytes p <;> simp [ih]

/-- Witness for c9_byte_field_parsing: the parse-agreement conjunct
applied at the token 0x2A, and the no-byte conjunct applied at a
two-field line whose second field fails to parse. -/
theorem c9_byte_field_parsing_witness :
    parse_bytes "0x2A".data = parse_bytes_spec "0x2A".data ∧
    lineVals ["0x2A".data, "zz".data]
      = (["0x2A".data, "zz".data] : List (List Char)).filterMap parse_bytes :=
  ⟨c9_byte_field_parsing.1 "0x2A".data,
   c9_byte_field_parsing.2.2.2 ["0x2A".data, "zz".data]⟩

end SensAI
